import Mathlib

/-!
Verification of the cluster consolidation controller
(`pkg/controllers/consolidation/controller.go`).

The controller is shallowly embedded: node, pod, provisioner and instance
type records become Lean structures; the Kubernetes API, the cloud
provider, the cluster-state observer and the scheduling simulator become
an explicit `Env` record of (possibly failing) query functions, with
`Option` standing for Go's `(value, err)` pairs (`none` = error); the
side effects of a tick (patches, launches, node observations, deletions,
PDB listing) are collected into an explicit `Effect` trace.  Prices and
disruption costs (Go `float64`) are embedded as rationals.
-/

namespace Consolidation

/-- Label / annotation maps: association lists from key to value. -/
abbrev Labels := List (String × String)

/-- Lookup of a key in a label map (Go `map[string]string` access returning
the zero value is modelled as `Option`). -/
def lookupKey (m : Labels) (k : String) : Option String := m.lookup k

/-- `v1alpha5.ProvisionerNameLabelKey`. -/
def provisionerNameLabelKey : String := "karpenter.sh/provisioner-name"

/-- `v1.LabelInstanceTypeStable`. -/
def labelInstanceTypeStable : String := "node.kubernetes.io/instance-type"

/-- `v1alpha5.LabelNodeInitialized`. -/
def labelNodeInitialized : String := "karpenter.sh/initialized"

/-- `v1alpha5.DoNotConsolidateNodeAnnotationKey`. -/
def doNotConsolidateKey : String := "karpenter.sh/do-not-consolidate"

/-- `v1alpha5.LabelCapacityType`. -/
def labelCapacityType : String := "karpenter.sh/capacity-type"

/-- `v1alpha1.CapacityTypeSpot`. -/
def capacityTypeSpot : String := "spot"

/-- A pod, carrying exactly the attributes the controller's helpers from
`pkg/utils/pod` read. -/
structure Pod where
  name : String
  ownedByNode : Bool
  ownedByDaemonSet : Bool
  terminal : Bool
  terminating : Bool
  doNotEvict : Bool
  hasController : Bool
  provisionable : Bool
deriving DecidableEq, Repr

/-- Modelled from the spec: `pod.IsOwnedByNode` (not under `src/`): the pod
is owned by the node object itself. -/
def Pod.IsOwnedByNode (p : Pod) : Bool := p.ownedByNode

/-- Modelled from the spec: `pod.IsOwnedByDaemonSet` (not under `src/`). -/
def Pod.IsOwnedByDaemonSet (p : Pod) : Bool := p.ownedByDaemonSet

/-- Modelled from the spec: `pod.IsTerminal` (not under `src/`): the pod is
in a terminal phase (succeeded / failed). -/
def Pod.IsTerminal (p : Pod) : Bool := p.terminal

/-- Modelled from the spec: `pod.IsTerminating` (not under `src/`): the pod
has a deletion timestamp. -/
def Pod.IsTerminating (p : Pod) : Bool := p.terminating

/-- Modelled from the spec: `pod.HasDoNotEvict` (not under `src/`): the pod
carries the `karpenter.sh/do-not-evict` marker. -/
def Pod.HasDoNotEvict (p : Pod) : Bool := p.doNotEvict

/-- Modelled from the spec: `pod.IsNotOwned` (not under `src/`): the pod has
no controlling owner. -/
def Pod.IsNotOwned (p : Pod) : Bool := !p.hasController

/-- Modelled from the spec: `pod.IsProvisionable` (not under `src/`): a
pending pod the provisioner could act on. -/
def Pod.IsProvisionable (p : Pod) : Bool := p.provisionable

/-- A `v1.Node` restricted to the fields the controller reads. Timestamps
are integer seconds; `deletionTimestamp = none` models the zero timestamp. -/
structure KNode where
  name : String
  labels : Labels
  annotations : Labels
  creationTimestamp : Int
  deletionTimestamp : Option Int
  unschedulable : Bool
deriving DecidableEq, Repr

/-- `cloudprovider.InstanceType` restricted to `Name()` and `Price()`. -/
structure InstanceType where
  name : String
  price : ℚ
deriving DecidableEq, Repr

/-- `v1alpha5.Provisioner` restricted to the consumed policy fields.
`consolidation = none` models `Spec.Consolidation == nil`; the inner
`Option Bool` models the `Enabled *bool` pointer. -/
structure Provisioner where
  name : String
  consolidation : Option (Option Bool)
  ttlSecondsUntilExpired : Option Int
deriving DecidableEq, Repr

/-- The enabled test of controller.go line 191:
`provisioner.Spec.Consolidation == nil || !ptr.BoolValue(provisioner.Spec.Consolidation.Enabled)`
means disabled; `ptr.BoolValue nil = false`. -/
def consolidationEnabled (p : Provisioner) : Bool :=
  match p.consolidation with
  | none => false
  | some e => e.getD false

/-- A node the scheduling simulator would create (`scheduling.Node`),
restricted to its instance-type options and its capacity-type requirement
(`Requirements.Get(LabelCapacityType)` as the set of allowed values). -/
structure NewNode where
  instanceTypeOptions : List InstanceType
  capacityTypeRequirement : List String
deriving DecidableEq, Repr

/-- An existing node the simulator placed pods on; only `len(inflight.Pods)`
is consumed. -/
structure InflightNode where
  pods : List Pod
deriving DecidableEq, Repr

/-- `candidateNode` of controller.go. -/
structure CandidateNode where
  node : KNode
  instanceType : InstanceType
  provisioner : Provisioner
  disruptionCost : ℚ
  pods : List Pod
deriving DecidableEq, Repr

/-- `consolidateResult`. -/
inductive ConsolidateResult where
  | unknown
  | notPossible
  | deleteEmpty
  | delete
  | replace
deriving DecidableEq, Repr

/-- `consolidationAction`. -/
structure ConsolidationAction where
  oldNodes : List KNode := []
  disruptionCost : ℚ := 0
  savings : ℚ := 0
  result : ConsolidateResult
  replacementNode : Option NewNode := none
deriving DecidableEq, Repr

/-- `ProcessResult`. -/
inductive ProcessResult where
  | failed
  | nothingToDo
  | consolidated
deriving DecidableEq, Repr

/-- A replica-owning workload (`ReplicaSet`, `ReplicationController`,
`StatefulSet`) restricted to `Spec.Replicas` / `Status.ReadyReplicas`. -/
structure ReplicaLike where
  specReplicas : Option Int
  readyReplicas : Int
deriving DecidableEq, Repr

/-- One observable side effect of a tick. -/
inductive Effect where
  | patchUnschedulable (nodeName : String) (unschedulable : Bool)
  | launchNode
  | observeNode (nodeName : String) (labels : Labels)
  | deleteNode (nodeName : String)
  | listPDBs
deriving DecidableEq, Repr

/-- The controller's environment: the cluster snapshot, the external
queries (all fallible, `none` = error) and the clock.  `pdbLimits`
abstracts `PDBLimits.CanEvictPods` (its code is outside `src/`);
`simulate` abstracts `provisioner.NewScheduler` + `Solve` on the deep
copy of the fleet excluding the candidate; `pollNode` is the `Get` the
readiness retry loop issues on its n-th attempt. -/
structure Env where
  nodes : List KNode
  nominatedNodes : List String
  provisionerList : Option (List Provisioner)
  getInstanceTypes : String → Option (List InstanceType)
  listPodsOnNode : String → Option (List Pod)
  pdbLimits : Option (List Pod → Bool)
  simulate : String → List Pod → Option (List NewNode × List InflightNode)
  podEvictionCost : Pod → ℚ
  nowSeconds : Int
  getNodeByName : String → Option KNode
  patchSucceeds : Bool
  launchNodes : Option (List String)
  pollNode : Nat → Option KNode
  listPendingPods : Option (List Pod)
  listReplicaSets : Option (List ReplicaLike)
  listReplicationControllers : Option (List ReplicaLike)
  listStatefulSets : Option (List ReplicaLike)

/-- Modelled from the spec: `disruptionCost(ctx, pods)` (not under `src/`)
is the sum of the per-pod eviction costs (§4.1 of the spec);
`GetPodEvictionCost` itself stays abstract in the environment. -/
def disruptionCost (env : Env) (pods : List Pod) : ℚ :=
  (pods.map env.podEvictionCost).sum

/-- `getNodePods`: list the pods bound to the node, dropping pods owned by
the node, owned by a daemonset, or terminal. -/
def getNodePods (env : Env) (nodeName : String) : Option (List Pod) :=
  (env.listPodsOnNode nodeName).map fun podList =>
    podList.filter fun p => !(p.IsOwnedByNode || p.IsOwnedByDaemonSet || p.IsTerminal)

/-- `buildProvisionerMap`: the provisioner list with, for each provisioner,
its instance-type catalog; any List / GetInstanceTypes error aborts. -/
def buildProvisionerMap (env : Env) : Option (List (Provisioner × List InstanceType)) :=
  env.provisionerList.bind fun provs =>
    provs.mapM fun p => (env.getInstanceTypes p.name).map fun its => (p, its)

/-- Lookup of a provisioner (and its catalog) by the node's provisioner-name
label, as the two Go maps keyed by provisioner name. -/
def findProvisioner (pm : List (Provisioner × List InstanceType)) (name : String) :
    Option (Provisioner × List InstanceType) :=
  pm.find? fun e => e.1.name == name

/-- One step of the `ForEachNode` callback of `candidateNodes`
(controller.go lines 177-228): the accumulator carries the candidate list
and the `uninitializedNodeExists` flag. -/
def candidateStep (env : Env) (pm : List (Provisioner × List InstanceType))
    (acc : List CandidateNode × Bool) (n : KNode) : List CandidateNode × Bool :=
  match (lookupKey n.labels provisionerNameLabelKey).bind (findProvisioner pm) with
  | none => acc
  | some (prov, its) =>
    match its.find? fun it =>
        it.name == (lookupKey n.labels labelInstanceTypeStable).getD "" with
    | none => acc
    | some instanceType =>
      if !consolidationEnabled prov then acc
      else if acc.2 then acc
      else if lookupKey n.labels labelNodeInitialized ≠ some "true" then (acc.1, true)
      else if lookupKey n.annotations doNotConsolidateKey == some "true" then acc
      else if env.nominatedNodes.contains n.name then acc
      else match getNodePods env n.name with
        | none => acc
        | some pods =>
          (acc.1 ++ [{ node := n, instanceType := instanceType, provisioner := prov,
                       pods := pods, disruptionCost := disruptionCost env pods }], acc.2)

/-- `candidateNodes`: enumerate consolidatable nodes; if some node passing
the provisioner / consolidation-enabled / instance-type filters is not
initialized, the whole enumeration returns the empty list. -/
def candidateNodes (env : Env) : Option (List CandidateNode) :=
  (buildProvisionerMap env).map fun pm =>
    let r := env.nodes.foldl (candidateStep env pm) ([], false)
    if r.2 then [] else r.1

/-- `podsPreventEviction`: scan the candidate's reschedulable pods; pods
that are terminating, terminal, or owned by the node are skipped; a
do-not-evict pod or an ownerless pod rejects. -/
def podsPreventEviction (pods : List Pod) : Option String :=
  match pods with
  | [] => none
  | p :: rest =>
    if p.IsTerminating || p.IsTerminal || p.IsOwnedByNode then podsPreventEviction rest
    else if p.HasDoNotEvict then some "found do-not-evict pod"
    else if p.IsNotOwned then some "found pod with no controller"
    else podsPreventEviction rest

/-- `canBeTerminated` (controller.go lines 372-380); `canEvict` is
`pdbs.CanEvictPods`. `some reason` models a non-nil error. -/
def canBeTerminated (canEvict : List Pod → Bool) (node : CandidateNode) : Option String :=
  if node.node.deletionTimestamp ≠ none then some "already being deleted"
  else if !canEvict node.pods then some "not eligible for termination due to PDBs"
  else podsPreventEviction node.pods

/-- Modelled from the spec: `clamp` (not under `src/`) clamps its middle
argument into the interval of the outer two. -/
def clamp (lo x hi : ℚ) : ℚ := max lo (min x hi)

/-- `calculateLifetimeRemaining`. -/
def calculateLifetimeRemaining (env : Env) (node : CandidateNode) : ℚ :=
  match node.provisioner.ttlSecondsUntilExpired with
  | none => 1
  | some ttl =>
    let ageInSeconds : ℚ := ((env.nowSeconds - node.node.creationTimestamp : Int) : ℚ)
    let totalLifetimeSeconds : ℚ := (ttl : ℚ)
    clamp 0 ((totalLifetimeSeconds - ageInSeconds) / totalLifetimeSeconds) 1

/-- Modelled from the spec: `filterByPrice` (not under `src/`) keeps the
instance types strictly cheaper than the given price (§4.5 step 4 of the
spec: "filter that node's allowable instance types to those strictly
cheaper than the old node's price"). -/
def filterByPrice (options : List InstanceType) (price : ℚ) : List InstanceType :=
  options.filter fun it => it.price < price

/-- The pods the simulator placed on existing nodes:
`schedulableCount += len(inflight.Pods)`. -/
def schedulableCount (inflightNodes : List InflightNode) : Nat :=
  (inflightNodes.map fun inflight => inflight.pods.length).sum

/-- `nodeConsolidationOptionReplaceOrDelete` (controller.go lines 430-500).
A simulation error (`NewScheduler` or `Solve`) yields `unknown`; zero new
nodes with every pod placed inflight yields `delete`; anything but exactly
one new node yields `notPossible`; otherwise the replacement's options are
filtered by price, the empty filter and the spot-to-spot case yield
`notPossible`, and the rest yields `replace`. -/
def nodeConsolidationOptionReplaceOrDelete (env : Env) (node : CandidateNode) :
    ConsolidationAction :=
  match env.simulate node.node.name node.pods with
  | none => { result := .unknown }
  | some (newNodes, inflightNodes) =>
    if newNodes.length = 0 ∧ node.pods.length = schedulableCount inflightNodes then
      { oldNodes := [node.node], disruptionCost := disruptionCost env node.pods,
        savings := node.instanceType.price, result := .delete }
    else
      match newNodes with
      | [newNode] =>
        let nodePrice := node.instanceType.price
        match filterByPrice newNode.instanceTypeOptions nodePrice with
        | [] => { result := .notPossible }
        | cheapest :: rest =>
          if lookupKey node.node.labels labelCapacityType == some capacityTypeSpot
              && newNode.capacityTypeRequirement.contains capacityTypeSpot then
            { result := .notPossible }
          else
            { oldNodes := [node.node], disruptionCost := disruptionCost env node.pods,
              savings := nodePrice - cheapest.price, result := .replace,
              replacementNode := some { newNode with instanceTypeOptions := cheapest :: rest } }
      | _ => { result := .notPossible }

/-- `nodeConsolidationActions`: plan, then scale the disruption cost by the
lifetime-remaining factor. -/
def nodeConsolidationActions (env : Env) (node : CandidateNode) : ConsolidationAction :=
  let lifetimeRemaining := calculateLifetimeRemaining env node
  let cost := nodeConsolidationOptionReplaceOrDelete env node
  { cost with disruptionCost := cost.disruptionCost * lifetimeRemaining }

/-- `byNodeDisruptionCost`: the strict "less" handed to `sort.Slice` —
ascending disruption cost, ties broken by older creation timestamp. -/
def byNodeDisruptionCost (a b : CandidateNode) : Bool :=
  if a.disruptionCost = b.disruptionCost then
    decide (a.node.creationTimestamp < b.node.creationTimestamp)
  else decide (a.disruptionCost < b.disruptionCost)

/-- The non-strict order a slice sorted by `byNodeDisruptionCost` satisfies:
`a` need not come strictly before `b`. -/
def nodeLE (a b : CandidateNode) : Prop := byNodeDisruptionCost b a = false

instance : DecidableRel nodeLE := fun a b => by unfold nodeLE; infer_instance

/-- `setNodeUnschedulable` (controller.go lines 582-604): returns the patch
effects and whether the call succeeded. -/
def setNodeUnschedulable (env : Env) (nodeName : String) (isUnschedulable : Bool) :
    List Effect × Bool :=
  match env.getNodeByName nodeName with
  | none => ([], false)
  | some node =>
    if !isUnschedulable && node.deletionTimestamp ≠ none then ([], true)
    else if node.unschedulable == isUnschedulable then ([], true)
    else if env.patchSucceeds then ([.patchUnschedulable nodeName isUnschedulable], true)
    else ([], false)

/-- `retry.Attempts(30)`. -/
def retryAttempts : Nat := 30

/-- The `retry.Do` readiness loop of `launchReplacementNode`: on each
attempt, `Get` the replacement node; a `Get` error retries; a node whose
labels carry the initialized key (any value) succeeds; otherwise retry.
Returns the observation trace and whether the node was seen initialized
within the attempt budget. -/
def waitForNodeInitialized (env : Env) (nodeName : String) :
    Nat → Nat → List Effect × Bool
  | _, 0 => ([], false)
  | attempt, fuel + 1 =>
    match env.pollNode attempt with
    | none => waitForNodeInitialized env nodeName (attempt + 1) fuel
    | some k8Node =>
      if (lookupKey k8Node.labels labelNodeInitialized).isSome then
        ([.observeNode nodeName k8Node.labels], true)
      else
        let r := waitForNodeInitialized env nodeName (attempt + 1) fuel
        (.observeNode nodeName k8Node.labels :: r.1, r.2)

/-- `launchReplacementNode` (controller.go lines 304-352): cordon the old
node, launch the replacement, wait for it to carry the initialized label;
on wait exhaustion un-cordon the old node and fail.  Returns the effect
trace and whether the launch-and-wait succeeded (`nil` error). -/
def launchReplacementNode (env : Env) (minCost : ConsolidationAction) :
    List Effect × Bool :=
  match minCost.oldNodes with
  | [oldNode] =>
    let cordon := setNodeUnschedulable env oldNode.name true
    if !cordon.2 then (cordon.1, false)
    else
      match env.launchNodes with
      | none => (cordon.1, false)
      | some nodeNames =>
        match nodeNames with
        | [replacementName] =>
          let wait := waitForNodeInitialized env replacementName 0 retryAttempts
          if wait.2 then (cordon.1 ++ [.launchNode] ++ wait.1, true)
          else
            let uncordon := setNodeUnschedulable env oldNode.name false
            (cordon.1 ++ [.launchNode] ++ wait.1 ++ uncordon.1, false)
        | _ => (cordon.1 ++ [.launchNode], false)
  | _ => ([], false)

/-- `performConsolidation` (controller.go lines 261-291): an invalid action
does nothing; a replace first launches the replacement and aborts on
failure; then every old node of the action is deleted. -/
def performConsolidation (env : Env) (action : ConsolidationAction) : List Effect :=
  if action.result ≠ .delete ∧ action.result ≠ .replace ∧ action.result ≠ .deleteEmpty then
    []
  else
    let launch :=
      if action.result = .replace then launchReplacementNode env action else ([], true)
    if !launch.2 then launch.1
    else launch.1 ++ action.oldNodes.map fun n => .deleteNode n.name

/-- The `for _, node := range candidates` loop of `ProcessCluster` (lines
151-163): skip candidates the gate rejects, plan the rest, and return the
first plan that is a delete or a replace. -/
def consolidateLoop (env : Env) (canEvict : List Pod → Bool) :
    List CandidateNode → Option ConsolidationAction
  | [] => none
  | node :: rest =>
    if (canBeTerminated canEvict node).isSome then consolidateLoop env canEvict rest
    else
      let action := nodeConsolidationActions env node
      if action.result = .delete ∨ action.result = .replace then some action
      else consolidateLoop env canEvict rest

/-- `ProcessCluster` (controller.go lines 125-165).  Returns the process
result, the actions handed to `performConsolidation`, and the full effect
trace of the tick. -/
def ProcessCluster (env : Env) : ProcessResult × List ConsolidationAction × List Effect :=
  match candidateNodes env with
  | none => (.failed, [], [])
  | some candidates =>
    if candidates.isEmpty then (.nothingToDo, [], [])
    else
      let emptyNodes := candidates.filter fun n => n.pods.isEmpty
      if !emptyNodes.isEmpty then
        let action : ConsolidationAction :=
          { oldNodes := emptyNodes.map fun n => n.node, result := .deleteEmpty }
        (.consolidated, [action], performConsolidation env action)
      else
        match env.pdbLimits with
        | none => (.failed, [], [.listPDBs])
        | some canEvict =>
          let sorted := List.insertionSort nodeLE candidates
          match consolidateLoop env canEvict sorted with
          | some action => (.consolidated, [action], .listPDBs :: performConsolidation env action)
          | none => (.nothingToDo, [], [.listPDBs])

/-- `hasPendingPods`: a pod-list failure conservatively reports pending
pods. -/
def hasPendingPods (env : Env) : Bool :=
  match env.listPendingPods with
  | none => true
  | some podList => podList.any Pod.IsProvisionable

/-- `replicaSetsReady` (controller.go lines 516-533).  NOTE: on a list
failure the Go code returns `true` ("all ready") although its own comment
says the failure should make the controller wait longer. -/
def replicaSetsReady (env : Env) : Bool :=
  match env.listReplicaSets with
  | none => true
  | some items => items.all fun rs => (rs.specReplicas.getD 1) ≤ rs.readyReplicas

/-- `replicationControllersReady`, same shape (and same list-failure
behaviour) as `replicaSetsReady`. -/
def replicationControllersReady (env : Env) : Bool :=
  match env.listReplicationControllers with
  | none => true
  | some items => items.all fun rs => (rs.specReplicas.getD 1) ≤ rs.readyReplicas

/-- `statefulSetsReady`, same shape (and same list-failure behaviour) as
`replicaSetsReady`. -/
def statefulSetsReady (env : Env) : Bool :=
  match env.listStatefulSets with
  | none => true
  | some items => items.all fun rs => (rs.specReplicas.getD 1) ≤ rs.readyReplicas

/-- `stabilizationWindow`, in seconds. -/
def stabilizationWindow (env : Env) : Int :=
  if !hasPendingPods env && replicaSetsReady env
      && replicationControllersReady env && statefulSetsReady env then 0
  else 300

/-- The test a candidate must pass for the loop of `ProcessCluster` to pick
it: the gate accepts and the planned action is a delete or a replace. -/
def firstConsolidatable (env : Env) (canEvict : List Pod → Bool) (n : CandidateNode) : Bool :=
  (canBeTerminated canEvict n).isNone &&
    ((nodeConsolidationActions env n).result == .delete
      || (nodeConsolidationActions env n).result == .replace)

/-- The per-node filters of `candidateNodes` that run before the
initialized check: a known provisioner, a resolvable instance type, and
consolidation enabled. -/
def passesProvisionerFilters (pm : List (Provisioner × List InstanceType)) (n : KNode) : Prop :=
  ∃ prov its it,
    (lookupKey n.labels provisionerNameLabelKey).bind (findProvisioner pm) = some (prov, its) ∧
    its.find? (fun i => i.name == (lookupKey n.labels labelInstanceTypeStable).getD "") = some it ∧
    consolidationEnabled prov = true

/-! Concrete fixtures used by witnesses and counterexamples. -/

/-- An environment whose every query succeeds trivially on an empty
cluster; concrete scenarios override individual fields. -/
def defaultEnv : Env where
  nodes := []
  nominatedNodes := []
  provisionerList := some []
  getInstanceTypes := fun _ => some []
  listPodsOnNode := fun _ => some []
  pdbLimits := some fun _ => true
  simulate := fun _ _ => none
  podEvictionCost := fun _ => 1
  nowSeconds := 0
  getNodeByName := fun _ => none
  patchSucceeds := true
  launchNodes := none
  pollNode := fun _ => none
  listPendingPods := some []
  listReplicaSets := some []
  listReplicationControllers := some []
  listStatefulSets := some []

/-- A provisioner with consolidation enabled and no expiration TTL. -/
def provP : Provisioner :=
  { name := "p", consolidation := some (some true), ttlSecondsUntilExpired := none }

/-- The expensive instance type of the fixtures. -/
def itFive : InstanceType := { name := "it1", price := 5 }

/-- A strictly cheaper instance type. -/
def itCheap : InstanceType := { name := "cheap", price := 2 }

/-- An ordinary reschedulable pod with a controlling owner. -/
def podCtl : Pod :=
  { name := "pod1", ownedByNode := false, ownedByDaemonSet := false, terminal := false,
    terminating := false, doNotEvict := false, hasController := true, provisionable := false }

/-- A second such pod. -/
def podCtl2 : Pod := { podCtl with name := "pod2" }

/-- A third such pod. -/
def podCtl3 : Pod := { podCtl with name := "pod3" }

/-- A node with no labels at all: no provisioner, and no initialized
label. -/
def nodeU : KNode :=
  { name := "u", labels := [], annotations := [], creationTimestamp := 0,
    deletionTimestamp := none, unschedulable := false }

/-- A fully eligible, initialized, empty node. -/
def nodeC : KNode :=
  { name := "c",
    labels := [(provisionerNameLabelKey, "p"), (labelInstanceTypeStable, "it1"),
               (labelNodeInitialized, "true")],
    annotations := [], creationTimestamp := 0, deletionTimestamp := none,
    unschedulable := false }

/-- An environment whose fleet holds the unlabeled uninitialized `nodeU`
next to the eligible empty `nodeC`. -/
def envC2 : Env :=
  { defaultEnv with
    nodes := [nodeU, nodeC],
    provisionerList := some [provP],
    getInstanceTypes := fun _ => some [itFive] }

/-- A node passing the provisioner filters but carrying no initialized
label. -/
def nodeElig : KNode :=
  { name := "e", labels := [(provisionerNameLabelKey, "p"), (labelInstanceTypeStable, "it1")],
    annotations := [], creationTimestamp := 0, deletionTimestamp := none,
    unschedulable := false }

/-- An environment whose only node passes the provisioner filters but is
not initialized. -/
def envC2W : Env :=
  { defaultEnv with
    nodes := [nodeElig],
    provisionerList := some [provP],
    getInstanceTypes := fun _ => some [itFive] }

/-- A plain worker node without a capacity-type label. -/
def plainNode : KNode :=
  { name := "w", labels := [], annotations := [], creationTimestamp := 0,
    deletionTimestamp := none, unschedulable := false }

/-- A candidate on `plainNode` holding one reschedulable pod. -/
def candFit : CandidateNode :=
  { node := plainNode, instanceType := itFive, provisioner := provP,
    disruptionCost := 1, pods := [podCtl] }

/-- An environment whose simulator places the candidate's single pod on
an existing node and needs no new node. -/
def envSimFit : Env :=
  { defaultEnv with simulate := fun _ _ => some ([], [{ pods := [podCtl] }]) }

/-- A spot-labelled node. -/
def spotNode : KNode :=
  { name := "s", labels := [(labelCapacityType, "spot")], annotations := [],
    creationTimestamp := 0, deletionTimestamp := none, unschedulable := false }

/-- A candidate on the spot node. -/
def candSpot : CandidateNode :=
  { node := spotNode, instanceType := itFive, provisioner := provP,
    disruptionCost := 1, pods := [podCtl] }

/-- A simulated replacement that allows spot capacity and offers a
strictly cheaper instance type. -/
def nnSpot : NewNode :=
  { instanceTypeOptions := [itCheap], capacityTypeRequirement := ["spot"] }

/-- An environment whose simulator proposes `nnSpot` as the single
replacement. -/
def envSimSpot : Env :=
  { defaultEnv with simulate := fun _ _ => some ([nnSpot], []) }

/-- A simulated replacement restricted to on-demand capacity with a
strictly cheaper instance type. -/
def nnOD : NewNode :=
  { instanceTypeOptions := [itCheap], capacityTypeRequirement := ["on-demand"] }

/-- An environment whose simulator proposes `nnOD` as the single
replacement. -/
def envSimCheap : Env :=
  { defaultEnv with simulate := fun _ _ => some ([nnOD], []) }

/-- An initialized, eligible node named `a` holding two pods. -/
def nodeA : KNode :=
  { name := "a",
    labels := [(provisionerNameLabelKey, "p"), (labelInstanceTypeStable, "it1"),
               (labelNodeInitialized, "true")],
    annotations := [], creationTimestamp := 0, deletionTimestamp := none,
    unschedulable := false }

/-- An initialized, eligible node named `b` holding one pod. -/
def nodeB : KNode :=
  { name := "b",
    labels := [(provisionerNameLabelKey, "p"), (labelInstanceTypeStable, "it1"),
               (labelNodeInitialized, "true")],
    annotations := [], creationTimestamp := 1, deletionTimestamp := none,
    unschedulable := false }

/-- An environment on `nodeA` and `nodeB` whose simulator always fits the
candidate's pods on the existing fleet. -/
def envC6 : Env :=
  { defaultEnv with
    nodes := [nodeA, nodeB],
    provisionerList := some [provP],
    getInstanceTypes := fun _ => some [itFive],
    listPodsOnNode := fun n => if n == "a" then some [podCtl, podCtl2] else some [podCtl3],
    simulate := fun _ pods => some ([], [{ pods := pods }]) }

/-- The candidate `candidateNodes` builds for `nodeA` under `envC6`. -/
def candA : CandidateNode :=
  { node := nodeA, instanceType := itFive, provisioner := provP,
    disruptionCost := disruptionCost envC6 [podCtl, podCtl2], pods := [podCtl, podCtl2] }

/-- The candidate `candidateNodes` builds for `nodeB` under `envC6`. -/
def candB : CandidateNode :=
  { node := nodeB, instanceType := itFive, provisioner := provP,
    disruptionCost := disruptionCost envC6 [podCtl3], pods := [podCtl3] }

/-- An initialized, eligible, empty node that already carries a deletion
timestamp. -/
def nodeDel : KNode :=
  { name := "d",
    labels := [(provisionerNameLabelKey, "p"), (labelInstanceTypeStable, "it1"),
               (labelNodeInitialized, "true")],
    annotations := [], creationTimestamp := 0, deletionTimestamp := some 7,
    unschedulable := false }

/-- An environment whose only node is the already-deleting empty
`nodeDel`. -/
def envC9 : Env :=
  { defaultEnv with
    nodes := [nodeDel],
    provisionerList := some [provP],
    getInstanceTypes := fun _ => some [itFive] }

/-- The empty candidate `candidateNodes` builds for `nodeDel`. -/
def candDel : CandidateNode :=
  { node := nodeDel, instanceType := itFive, provisioner := provP,
    disruptionCost := 0, pods := [] }

/-- The node a replace action would delete. -/
def oldPlain : KNode :=
  { name := "old", labels := [], annotations := [], creationTimestamp := 0,
    deletionTimestamp := none, unschedulable := false }

/-- A replacement node observed with the initialized label set to
`"true"`. -/
def replInit : KNode :=
  { name := "r1", labels := [(labelNodeInitialized, "true")], annotations := [],
    creationTimestamp := 0, deletionTimestamp := none, unschedulable := false }

/-- A replacement node observed with the initialized label set to
`"false"`. -/
def replFalse : KNode :=
  { name := "r1", labels := [(labelNodeInitialized, "false")], annotations := [],
    creationTimestamp := 0, deletionTimestamp := none, unschedulable := false }

/-- A replace action on `oldPlain`. -/
def actReplace : ConsolidationAction := { oldNodes := [oldPlain], result := .replace }

/-- An environment whose launch succeeds and whose first poll sees
`replInit`. -/
def envLaunch : Env :=
  { defaultEnv with
    getNodeByName := fun _ => some oldPlain,
    launchNodes := some ["r1"],
    pollNode := fun _ => some replInit }

/-- An environment whose launch succeeds and whose first poll sees the
replacement with the initialized label `"false"`. -/
def envC10 : Env :=
  { defaultEnv with
    getNodeByName := fun _ => some oldPlain,
    launchNodes := some ["r1"],
    pollNode := fun _ => some replFalse }

/-- An environment whose ReplicaSet list call fails while everything else
is healthy. -/
def envC8 : Env := { defaultEnv with listReplicaSets := none }

/-! Helper lemmas. -/

theorem byNodeDisruptionCost_eq_false_iff (x y : CandidateNode) :
    byNodeDisruptionCost x y = false ↔
      (x.disruptionCost = y.disruptionCost ∧
        y.node.creationTimestamp ≤ x.node.creationTimestamp) ∨
      (x.disruptionCost ≠ y.disruptionCost ∧ y.disruptionCost ≤ x.disruptionCost) := by
  unfold byNodeDisruptionCost
  by_cases h : x.disruptionCost = y.disruptionCost
  · rw [if_pos h]
    simp [h, not_lt]
  · rw [if_neg h]
    simp [h, not_lt]

instance : IsTotal CandidateNode nodeLE := by
  constructor
  intro a b
  unfold nodeLE
  rw [byNodeDisruptionCost_eq_false_iff, byNodeDisruptionCost_eq_false_iff]
  by_cases h : a.disruptionCost = b.disruptionCost
  · rcases le_total a.node.creationTimestamp b.node.creationTimestamp with ht | ht
    · exact Or.inl (Or.inl ⟨h.symm, ht⟩)
    · exact Or.inr (Or.inl ⟨h, ht⟩)
  · rcases lt_or_gt_of_ne h with hlt | hgt
    · exact Or.inl (Or.inr ⟨fun he => h he.symm, le_of_lt hlt⟩)
    · exact Or.inr (Or.inr ⟨h, le_of_lt hgt⟩)

instance : IsTrans CandidateNode nodeLE := by
  constructor
  intro a b c hab hbc
  unfold nodeLE at *
  rw [byNodeDisruptionCost_eq_false_iff] at hab hbc ⊢
  rcases hab with ⟨he1, ht1⟩ | ⟨hn1, hl1⟩ <;> rcases hbc with ⟨he2, ht2⟩ | ⟨hn2, hl2⟩
  · exact Or.inl ⟨he2.trans he1, ht1.trans ht2⟩
  · exact Or.inr ⟨fun he => hn2 (he1 ▸ he), he1 ▸ hl2⟩
  · exact Or.inr ⟨fun he => hn1 (he ▸ he2.symm ▸ rfl), he2 ▸ hl1⟩
  · exact Or.inr ⟨fun he => hn1 (le_antisymm (he ▸ hl2) hl1), hl1.trans hl2⟩

theorem consolidateLoop_eq_find (env : Env) (canEvict : List Pod → Bool) (l : List CandidateNode) :
    consolidateLoop env canEvict l
      = (l.find? (firstConsolidatable env canEvict)).map (nodeConsolidationActions env) := by
  induction l with
  | nil => rfl
  | cons x rest ih =>
    unfold consolidateLoop
    by_cases hg : (canBeTerminated canEvict x).isSome
    · rw [if_pos hg, ih, List.find?_cons_of_neg]
      unfold firstConsolidatable
      simp [Option.isNone_iff_eq_none, Option.isSome_iff_exists] at hg ⊢
      intro h
      rw [h] at hg
      obtain ⟨a, ha⟩ := hg
      exact Option.noConfusion ha
    · rw [if_neg hg]
      dsimp only
      by_cases hr : (nodeConsolidationActions env x).result = .delete ∨
          (nodeConsolidationActions env x).result = .replace
      · rw [if_pos hr, List.find?_cons_of_pos]
        · rfl
        · unfold firstConsolidatable
          simp [Option.isNone_iff_eq_none, Option.not_isSome_iff_eq_none.mp hg]
          rcases hr with h | h <;> simp [h]
      · rw [if_neg hr, ih, List.find?_cons_of_neg]
        unfold firstConsolidatable
        simp only [Bool.and_eq_true, Bool.or_eq_true, beq_iff_eq]
        rintro ⟨-, h | h⟩ <;> exact hr (by simp [h])

theorem processCluster_nonEmpty (env : Env) (cands : List CandidateNode)
    (canEvict : List Pod → Bool)
    (h1 : candidateNodes env = some cands) (h2 : cands ≠ [])
    (h3 : ∀ c ∈ cands, c.pods ≠ []) (h4 : env.pdbLimits = some canEvict) :
    ProcessCluster env =
      match consolidateLoop env canEvict (List.insertionSort nodeLE cands) with
      | some action => (.consolidated, [action], .listPDBs :: performConsolidation env action)
      | none => (.nothingToDo, [], [.listPDBs]) := by
  unfold ProcessCluster
  rw [h1]
  dsimp only
  rw [if_neg (by simpa [List.isEmpty_iff] using h2)]
  have hemp : cands.filter (fun n => n.pods.isEmpty) = [] := by
    rw [List.filter_eq_nil_iff]
    intro c hc
    simpa [List.isEmpty_iff] using h3 c hc
  rw [hemp]
  rw [if_neg (by simp)]
  rw [h4]

theorem processCluster_at_most_one (e : Env) : (ProcessCluster e).2.1.length ≤ 1 := by
  unfold ProcessCluster
  cases candidateNodes e with
  | none => simp
  | some candidates =>
    dsimp only
    by_cases h1 : candidates.isEmpty = true
    · rw [if_pos h1]; simp
    · rw [if_neg h1]
      by_cases h2 : (!(candidates.filter fun n => n.pods.isEmpty).isEmpty) = true
      · rw [if_pos h2]; simp
      · rw [if_neg h2]
        cases e.pdbLimits with
        | none => simp
        | some canEvict =>
          dsimp only
          cases consolidateLoop e canEvict (List.insertionSort nodeLE candidates) <;> simp

theorem candidateStep_flag_mono (env : Env) (pm : List (Provisioner × List InstanceType))
    (acc : List CandidateNode × Bool) (n : KNode) (h : acc.2 = true) :
    (candidateStep env pm acc n).2 = true := by
  unfold candidateStep
  repeat' split
  all_goals first | exact h | rfl

theorem candidateStep_sets_flag (env : Env) (pm : List (Provisioner × List InstanceType))
    (acc : List CandidateNode × Bool) (n : KNode)
    (hel : passesProvisionerFilters pm n)
    (hinit : lookupKey n.labels labelNodeInitialized ≠ some "true") :
    (candidateStep env pm acc n).2 = true := by
  obtain ⟨prov, its, it, hprov, hit, hen⟩ := hel
  unfold candidateStep
  rw [hprov]
  dsimp only
  rw [hit]
  dsimp only
  rw [if_neg (by simp [hen])]
  by_cases hacc : acc.2 = true
  · rw [if_pos hacc]; exact hacc
  · rw [if_neg hacc, if_pos hinit]

theorem foldl_flag_mono (env : Env) (pm : List (Provisioner × List InstanceType))
    (l : List KNode) :
    ∀ acc, acc.2 = true → (l.foldl (candidateStep env pm) acc).2 = true := by
  induction l with
  | nil => intro acc h; exact h
  | cons x rest ih =>
    intro acc h
    exact ih _ (candidateStep_flag_mono env pm acc x h)

theorem foldl_flag_of_bad_node (env : Env) (pm : List (Provisioner × List InstanceType))
    (l : List KNode) (n : KNode) (hn : n ∈ l)
    (hel : passesProvisionerFilters pm n)
    (hinit : lookupKey n.labels labelNodeInitialized ≠ some "true") :
    ∀ acc, (l.foldl (candidateStep env pm) acc).2 = true := by
  induction l with
  | nil => cases hn
  | cons x rest ih =>
    intro acc
    rcases List.mem_cons.mp hn with hx | hx
    · subst hx
      exact foldl_flag_mono env pm rest _ (candidateStep_sets_flag env pm acc n hel hinit)
    · simp only [List.foldl_cons]
      exact ih hx (candidateStep env pm acc x)

theorem candidateNodes_empty_of_bad_node (env : Env)
    (pm : List (Provisioner × List InstanceType)) (n : KNode)
    (hpm : buildProvisionerMap env = some pm) (hn : n ∈ env.nodes)
    (hel : passesProvisionerFilters pm n)
    (hinit : lookupKey n.labels labelNodeInitialized ≠ some "true") :
    candidateNodes env = some [] := by
  unfold candidateNodes
  rw [hpm]
  simp only [Option.map_some']
  rw [if_pos (foldl_flag_of_bad_node env pm env.nodes n hn hel hinit ([], false))]

theorem podsPreventEviction_isSome_iff (pods : List Pod) :
    (podsPreventEviction pods).isSome = true ↔
      ∃ p ∈ pods, (p.IsTerminating || p.IsTerminal || p.IsOwnedByNode) = false ∧
        (p.HasDoNotEvict = true ∨ p.IsNotOwned = true) := by
  induction pods with
  | nil => simp [podsPreventEviction]
  | cons p rest ih =>
    unfold podsPreventEviction
    by_cases hskip : (p.IsTerminating || p.IsTerminal || p.IsOwnedByNode) = true
    · rw [if_pos hskip, ih]
      constructor
      · rintro ⟨q, hq, hps⟩
        exact ⟨q, List.mem_cons_of_mem _ hq, hps⟩
      · rintro ⟨q, hq, hrel, hbad⟩
        rcases List.mem_cons.mp hq with hq | hq
        · subst hq; rw [hskip] at hrel; cases hrel
        · exact ⟨q, hq, hrel, hbad⟩
    · rw [if_neg hskip]
      by_cases hdne : p.HasDoNotEvict = true
      · rw [if_pos hdne]
        simp only [Option.isSome_some, true_iff]
        exact ⟨p, List.mem_cons_self _ _, by simpa using hskip, Or.inl hdne⟩
      · rw [if_neg hdne]
        by_cases hno : p.IsNotOwned = true
        · rw [if_pos hno]
          simp only [Option.isSome_some, true_iff]
          exact ⟨p, List.mem_cons_self _ _, by simpa using hskip, Or.inr hno⟩
        · rw [if_neg hno, ih]
          constructor
          · rintro ⟨q, hq, hps⟩
            exact ⟨q, List.mem_cons_of_mem _ hq, hps⟩
          · rintro ⟨q, hq, hrel, hbad⟩
            rcases List.mem_cons.mp hq with hq | hq
            · subst hq
              rcases hbad with hb | hb
              · exact absurd hb hdne
              · exact absurd hb hno
            · exact ⟨q, hq, hrel, hbad⟩

theorem canBeTerminated_isSome_iff (canEvict : List Pod → Bool) (node : CandidateNode) :
    (canBeTerminated canEvict node).isSome = true ↔
      node.node.deletionTimestamp ≠ none ∨ canEvict node.pods = false ∨
        ∃ p ∈ node.pods, (p.IsTerminating || p.IsTerminal || p.IsOwnedByNode) = false ∧
          (p.HasDoNotEvict = true ∨ p.IsNotOwned = true) := by
  unfold canBeTerminated
  by_cases hdt : node.node.deletionTimestamp ≠ none
  · rw [if_pos hdt]
    simp [hdt]
  · rw [if_neg hdt]
    by_cases hev : canEvict node.pods = false
    · rw [if_pos (by simp [hev])]
      simp [hev]
    · rw [if_neg (by simpa using hev)]
      rw [podsPreventEviction_isSome_iff]
      simp [hdt, hev]

theorem waitFor_no_delete (env : Env) (r n : String) :
    ∀ (fuel attempt : Nat),
      Effect.deleteNode n ∉ (waitForNodeInitialized env r attempt fuel).1 := by
  intro fuel
  induction fuel with
  | zero => intro a; simp [waitForNodeInitialized]
  | succ f ih =>
    intro a
    unfold waitForNodeInitialized
    cases env.pollNode a with
    | none => exact ih (a + 1)
    | some k =>
      dsimp only
      split
      · simp
      · intro hmem
        rcases List.mem_cons.mp hmem with h | h
        · exact Effect.noConfusion h
        · exact ih (a + 1) h

theorem waitFor_success_observe (env : Env) (r : String) :
    ∀ (fuel attempt : Nat),
      (waitForNodeInitialized env r attempt fuel).2 = true →
      ∃ lbls, Effect.observeNode r lbls ∈ (waitForNodeInitialized env r attempt fuel).1 ∧
        (lookupKey lbls labelNodeInitialized).isSome = true := by
  intro fuel
  induction fuel with
  | zero => intro a h; simp [waitForNodeInitialized] at h
  | succ f ih =>
    intro a h
    unfold waitForNodeInitialized at h ⊢
    cases hp : env.pollNode a with
    | none => rw [hp] at h; exact ih (a + 1) h
    | some k =>
      rw [hp] at h
      dsimp only at h ⊢
      by_cases hl : (lookupKey k.labels labelNodeInitialized).isSome = true
      · rw [if_pos hl] at h ⊢
        exact ⟨k.labels, List.mem_singleton.mpr rfl, hl⟩
      · rw [if_neg hl] at h ⊢
        obtain ⟨lbls, hmem, hsome⟩ := ih (a + 1) h
        exact ⟨lbls, List.mem_cons_of_mem _ hmem, hsome⟩

theorem waitFor_all_fail (env : Env) (r : String)
    (hall : ∀ i k, env.pollNode i = some k →
      lookupKey k.labels labelNodeInitialized = none) :
    ∀ (fuel attempt : Nat), (waitForNodeInitialized env r attempt fuel).2 = false := by
  intro fuel
  induction fuel with
  | zero => intro a; simp [waitForNodeInitialized]
  | succ f ih =>
    intro a
    unfold waitForNodeInitialized
    cases hp : env.pollNode a with
    | none => exact ih (a + 1)
    | some k =>
      dsimp only
      rw [if_neg (by simp [hall a k hp])]
      exact ih (a + 1)

theorem setNodeUnschedulable_no_delete (env : Env) (m : String) (b : Bool) (n : String) :
    Effect.deleteNode n ∉ (setNodeUnschedulable env m b).1 := by
  unfold setNodeUnschedulable
  cases env.getNodeByName m with
  | none => simp
  | some node =>
    dsimp only
    split
    · simp
    · split
      · simp
      · split <;> simp

theorem launch_no_delete (env : Env) (act : ConsolidationAction) (n : String) :
    Effect.deleteNode n ∉ (launchReplacementNode env act).1 := by
  unfold launchReplacementNode
  match act.oldNodes with
  | [] => simp
  | _ :: _ :: _ => simp
  | [oldNode] =>
    dsimp only
    split
    · exact setNodeUnschedulable_no_delete env oldNode.name true n
    · cases env.launchNodes with
      | none => exact setNodeUnschedulable_no_delete env oldNode.name true n
      | some names =>
        dsimp only
        match names with
        | [] =>
          intro hmem
          rcases List.mem_append.mp hmem with h | h
          · exact setNodeUnschedulable_no_delete env oldNode.name true n h
          · simp at h
        | _ :: _ :: _ =>
          intro hmem
          rcases List.mem_append.mp hmem with h | h
          · exact setNodeUnschedulable_no_delete env oldNode.name true n h
          · simp at h
        | [replacementName] =>
          dsimp only
          split
          · intro hmem
            rcases List.mem_append.mp hmem with h | h
            · rcases List.mem_append.mp h with h2 | h2
              · exact setNodeUnschedulable_no_delete env oldNode.name true n h2
              · simp at h2
            · exact waitFor_no_delete env replacementName n retryAttempts 0 h
          · intro hmem
            rcases List.mem_append.mp hmem with h | h
            · rcases List.mem_append.mp h with h2 | h2
              · rcases List.mem_append.mp h2 with h3 | h3
                · exact setNodeUnschedulable_no_delete env oldNode.name true n h3
                · simp at h3
              · exact waitFor_no_delete env replacementName n retryAttempts 0 h2
            · exact setNodeUnschedulable_no_delete env oldNode.name false n h

theorem launch_success_observe (env : Env) (act : ConsolidationAction) :
    (launchReplacementNode env act).2 = true →
    ∃ r lbls, Effect.observeNode r lbls ∈ (launchReplacementNode env act).1 ∧
      (lookupKey lbls labelNodeInitialized).isSome = true := by
  unfold launchReplacementNode
  cases act.oldNodes with
  | nil => intro hok; simp at hok
  | cons hd tl =>
    cases tl with
    | cons h2 t2 => intro hok; simp at hok
    | nil =>
      dsimp only
      split
      · intro hok; simp at hok
      · cases env.launchNodes with
        | none => intro hok; simp at hok
        | some names =>
          dsimp only
          match names with
          | [] => intro hok; simp at hok
          | _ :: _ :: _ => intro hok; simp at hok
          | [replacementName] =>
            dsimp only
            by_cases hw : (waitForNodeInitialized env replacementName 0 retryAttempts).2 = true
            · rw [if_pos hw]
              intro _
              obtain ⟨lbls, hmem, hsome⟩ :=
                waitFor_success_observe env replacementName retryAttempts 0 hw
              exact ⟨replacementName, lbls,
                List.mem_append.mpr (Or.inr hmem), hsome⟩
            · rw [if_neg hw]
              intro hok; simp at hok

theorem launch_fail_on_launch_error (env : Env) (act : ConsolidationAction)
    (hl : env.launchNodes = none) :
    (launchReplacementNode env act).2 = false := by
  unfold launchReplacementNode
  cases ho : act.oldNodes with
  | nil => rfl
  | cons hd tl =>
    cases tl with
    | cons h2 t2 => rfl
    | nil =>
      dsimp only
      split
      · rfl
      · rw [hl]

theorem launch_fail_on_wait_exhaustion (env : Env) (act : ConsolidationAction)
    (hall : ∀ i k, env.pollNode i = some k →
      lookupKey k.labels labelNodeInitialized = none) :
    (launchReplacementNode env act).2 = false := by
  unfold launchReplacementNode
  cases ho : act.oldNodes with
  | nil => rfl
  | cons hd tl =>
    cases tl with
    | cons h2 t2 => rfl
    | nil =>
      dsimp only
      split
      · rfl
      · cases env.launchNodes with
        | none => rfl
        | some names =>
          dsimp only
          match names with
          | [] => rfl
          | _ :: _ :: _ => rfl
          | [replacementName] =>
            dsimp only
            rw [if_neg (by simp [waitFor_all_fail env replacementName hall retryAttempts 0])]

theorem append_eq_append_cons {α : Type} (A B p s : List α) (x : α)
    (hx : x ∉ A) (h : A ++ B = p ++ x :: s) :
    ∃ p2, p = A ++ p2 ∧ B = p2 ++ x :: s := by
  rcases List.append_eq_append_iff.mp h with ⟨a2, ha1, ha2⟩ | ⟨c2, hc1, hc2⟩
  · exact ⟨a2, ha1, ha2⟩
  · match c2, hc2 with
    | [], hc2 =>
      refine ⟨[], by simpa using hc1.symm, by simpa using hc2.symm⟩
    | y :: t, hc2 =>
      exfalso
      have hxy : x = y := by simpa using congrArg (fun l => l.head?) hc2
      subst hxy
      exact hx (hc1 ▸ List.mem_append.mpr (Or.inr (List.mem_cons_self _ _)))

theorem performConsolidation_replace (env : Env) (act : ConsolidationAction)
    (h : act.result = .replace) :
    performConsolidation env act =
      if (launchReplacementNode env act).2 = false then (launchReplacementNode env act).1
      else (launchReplacementNode env act).1
        ++ act.oldNodes.map fun n => Effect.deleteNode n.name := by
  unfold performConsolidation
  rw [if_neg (by simp [h]), if_pos h]
  cases hL : (launchReplacementNode env act).2 <;> simp [hL]

theorem replace_savings_pos (env : Env) (node : CandidateNode)
    (hrep : (nodeConsolidationOptionReplaceOrDelete env node).result = .replace) :
    0 < (nodeConsolidationOptionReplaceOrDelete env node).savings := by
  unfold nodeConsolidationOptionReplaceOrDelete at hrep ⊢
  cases hsim : env.simulate node.node.name node.pods with
  | none => rw [hsim] at hrep; exact absurd hrep (by simp)
  | some r =>
    obtain ⟨newNodes, inflightNodes⟩ := r
    rw [hsim] at hrep
    dsimp only at hrep ⊢
    by_cases hdel : newNodes.length = 0 ∧ node.pods.length = schedulableCount inflightNodes
    · rw [if_pos hdel] at hrep; exact absurd hrep (by simp)
    · rw [if_neg hdel] at hrep ⊢
      match newNodes with
      | [] => exact absurd hrep (by simp)
      | a :: b :: t => exact absurd hrep (by simp)
      | [nn] =>
        dsimp only at hrep ⊢
        cases hf : filterByPrice nn.instanceTypeOptions node.instanceType.price with
        | nil => rw [hf] at hrep; exact absurd hrep (by simp)
        | cons cheapest rest =>
          rw [hf] at hrep
          dsimp only at hrep ⊢
          by_cases hspot : (lookupKey node.node.labels labelCapacityType == some capacityTypeSpot
              && nn.capacityTypeRequirement.contains capacityTypeSpot) = true
          · rw [if_pos hspot] at hrep; exact absurd hrep (by simp)
          · rw [if_neg hspot] at hrep ⊢
            dsimp only
            have hmem : cheapest ∈ filterByPrice nn.instanceTypeOptions node.instanceType.price := by
              rw [hf]; exact List.mem_cons_self _ _
            have hlt : cheapest.price < node.instanceType.price := by
              have := List.of_mem_filter hmem
              simpa using this
            linarith

/-! The claims. -/

/-- C1: for every Replace action executed by `performConsolidation`, the
delete of the old node is issued only after the replacement node has been
observed carrying the initialized label; if launching the replacement
fails, or the readiness wait exhausts its attempts without ever observing
the label, the old node is not deleted in that tick. -/
theorem replace_deletes_old_only_after_observed_init (env : Env)
    (act : ConsolidationAction) (hres : act.result = .replace) :
    (∀ p n s, performConsolidation env act = p ++ Effect.deleteNode n :: s →
       ∃ r lbls, Effect.observeNode r lbls ∈ p ∧
         (lookupKey lbls labelNodeInitialized).isSome = true) ∧
    (env.launchNodes = none →
       ∀ n, Effect.deleteNode n ∉ performConsolidation env act) ∧
    ((∀ i k, env.pollNode i = some k →
        lookupKey k.labels labelNodeInitialized = none) →
       ∀ n, Effect.deleteNode n ∉ performConsolidation env act) := by
  refine ⟨?_, ?_, ?_⟩
  · intro p n s hdec
    cases hL2 : (launchReplacementNode env act).2 with
    | false =>
      have htr : performConsolidation env act = (launchReplacementNode env act).1 := by
        rw [performConsolidation_replace env act hres, hL2]
        simp
      rw [htr] at hdec
      exact absurd (hdec ▸ List.mem_append.mpr (Or.inr (List.mem_cons_self _ _)))
        (launch_no_delete env act n)
    | true =>
      have htr : performConsolidation env act = (launchReplacementNode env act).1
          ++ act.oldNodes.map (fun n => Effect.deleteNode n.name) := by
        rw [performConsolidation_replace env act hres, hL2]
        simp
      rw [htr] at hdec
      obtain ⟨p2, hp, _⟩ := append_eq_append_cons (launchReplacementNode env act).1
        (act.oldNodes.map fun n => Effect.deleteNode n.name) p s (Effect.deleteNode n)
        (launch_no_delete env act n) hdec
      obtain ⟨r, lbls, hmem, hsome⟩ := launch_success_observe env act hL2
      exact ⟨r, lbls, hp ▸ List.mem_append.mpr (Or.inl hmem), hsome⟩
  · intro hln n
    have htr : performConsolidation env act = (launchReplacementNode env act).1 := by
      rw [performConsolidation_replace env act hres,
        launch_fail_on_launch_error env act hln]
      simp
    rw [htr]
    exact launch_no_delete env act n
  · intro hall n
    have htr : performConsolidation env act = (launchReplacementNode env act).1 := by
      rw [performConsolidation_replace env act hres,
        launch_fail_on_wait_exhaustion env act hall]
      simp
    rw [htr]
    exact launch_no_delete env act n

/-- C1 witness: under `envLaunch` the replace on `oldPlain` produces the
trace cordon, launch, observe-initialized, delete; the theorem applied to
the concrete decomposition exhibits the prior observation. -/
theorem replace_deletes_old_only_after_observed_init_witness :
    ∃ r lbls,
      Effect.observeNode r lbls ∈
        ([.patchUnschedulable "old" true, .launchNode,
          .observeNode "r1" [(labelNodeInitialized, "true")]] : List Effect) ∧
      (lookupKey lbls labelNodeInitialized).isSome = true :=
  (replace_deletes_old_only_after_observed_init envLaunch actReplace rfl).1
    [.patchUnschedulable "old" true, .launchNode,
     .observeNode "r1" [(labelNodeInitialized, "true")]] "old" [] rfl

/-- C2 counterexample: the fleet of `envC2` holds `nodeU`, whose
initialized label is not `"true"` (it has no provisioner label), yet
`ProcessCluster` consolidates and deletes a node instead of returning
NothingToDo and mutating nothing. -/
theorem uninitialized_unlabeled_node_does_not_abort :
    (nodeU ∈ envC2.nodes ∧ lookupKey nodeU.labels labelNodeInitialized ≠ some "true") ∧
    ProcessCluster envC2 =
      (.consolidated, [{ oldNodes := [nodeC], result := .deleteEmpty }],
       [.deleteNode "c"]) ∧
    ProcessCluster envC2 ≠ (.nothingToDo, [], []) := by
  refine ⟨⟨?_, ?_⟩, ?_, ?_⟩ <;> decide

/-- C2 (amended): if some node that passes the provisioner,
consolidation-enabled and instance-type filters has its initialized label
not equal to `"true"`, then `ProcessCluster` returns NothingToDo, performs
no action and produces no side effect. -/
theorem uninitialized_filtered_node_aborts_tick (env : Env)
    (pm : List (Provisioner × List InstanceType)) (n : KNode)
    (hpm : buildProvisionerMap env = some pm) (hn : n ∈ env.nodes)
    (hel : passesProvisionerFilters pm n)
    (hinit : lookupKey n.labels labelNodeInitialized ≠ some "true") :
    ProcessCluster env = (.nothingToDo, [], []) := by
  have hc := candidateNodes_empty_of_bad_node env pm n hpm hn hel hinit
  unfold ProcessCluster
  rw [hc]
  rfl

/-- C2 witness: `envC2W` holds a single filtered-in node with no
initialized label; the tick does nothing. -/
theorem uninitialized_filtered_node_aborts_tick_witness :
    ProcessCluster envC2W = (.nothingToDo, [], []) :=
  uninitialized_filtered_node_aborts_tick envC2W [(provP, [itFive])] nodeElig
    rfl (by decide) ⟨provP, [itFive], itFive, rfl, rfl, rfl⟩ (by decide)

/-- C3: when the simulation proposes exactly one new node, the planner
filters its instance-type options to those strictly cheaper than the old
node's price; a replace always has positive savings; an empty filtered
set yields NotPossible; and when the options are sorted by ascending
price, the savings equal the old price minus the price of the cheapest
remaining option. -/
theorem replace_savings_positive_and_cheapest (env : Env) (node : CandidateNode)
    (nn : NewNode) (inflightNodes : List InflightNode)
    (hsim : env.simulate node.node.name node.pods = some ([nn], inflightNodes)) :
    ((nodeConsolidationOptionReplaceOrDelete env node).result = .replace →
       0 < (nodeConsolidationOptionReplaceOrDelete env node).savings) ∧
    (filterByPrice nn.instanceTypeOptions node.instanceType.price = [] →
       (nodeConsolidationOptionReplaceOrDelete env node).result = .notPossible) ∧
    (nn.instanceTypeOptions.Pairwise (fun a b => a.price ≤ b.price) →
     (nodeConsolidationOptionReplaceOrDelete env node).result = .replace →
       ∃ cheapest rest,
         filterByPrice nn.instanceTypeOptions node.instanceType.price = cheapest :: rest ∧
         (nodeConsolidationOptionReplaceOrDelete env node).savings
           = node.instanceType.price - cheapest.price ∧
         ∀ it ∈ cheapest :: rest, cheapest.price ≤ it.price) := by
  refine ⟨replace_savings_pos env node, ?_, ?_⟩
  · intro hfil
    unfold nodeConsolidationOptionReplaceOrDelete
    rw [hsim]
    dsimp only
    rw [if_neg (by simp)]
    rw [hfil]
  · intro hpair hrep
    unfold nodeConsolidationOptionReplaceOrDelete at hrep ⊢
    rw [hsim] at hrep ⊢
    dsimp only at hrep ⊢
    rw [if_neg (by simp)] at hrep ⊢
    cases hf : filterByPrice nn.instanceTypeOptions node.instanceType.price with
    | nil => rw [hf] at hrep; exact absurd hrep (by simp)
    | cons cheapest rest =>
      rw [hf] at hrep
      dsimp only at hrep ⊢
      by_cases hspot : (lookupKey node.node.labels labelCapacityType == some capacityTypeSpot
          && nn.capacityTypeRequirement.contains capacityTypeSpot) = true
      · rw [if_pos hspot] at hrep; exact absurd hrep (by simp)
      · rw [if_neg hspot] at hrep ⊢
        refine ⟨cheapest, rest, rfl, rfl, ?_⟩
        have hsorted : (filterByPrice nn.instanceTypeOptions
            node.instanceType.price).Pairwise (fun a b => a.price ≤ b.price) :=
          List.Pairwise.sublist (List.filter_sublist _) hpair
        rw [hf] at hsorted
        intro it hit
        rcases List.mem_cons.mp hit with hit | hit
        · exact hit ▸ le_refl _
        · exact (List.pairwise_cons.mp hsorted).1 it hit

/-- C3 witness: under `envSimCheap` the planner replaces `candFit` (old
price 5) with the cheaper on-demand option (price 2), so the savings are
positive. -/
theorem replace_savings_positive_and_cheapest_witness :
    0 < (nodeConsolidationOptionReplaceOrDelete envSimCheap candFit).savings :=
  (replace_savings_positive_and_cheapest envSimCheap candFit nnOD [] rfl).1 rfl

/-- C4: if the simulation needs zero new nodes and the inflight-placed pod
count equals the candidate's pod count, the planner returns Delete with
savings equal to the old node's instance-type price; in every other
situation in which the number of new nodes is not exactly one (including
more than one), it returns NotPossible. -/
theorem delete_when_pods_fit_and_notPossible_otherwise (env : Env) (node : CandidateNode)
    (newNodes : List NewNode) (inflightNodes : List InflightNode)
    (hsim : env.simulate node.node.name node.pods = some (newNodes, inflightNodes)) :
    ((newNodes = [] ∧ node.pods.length = schedulableCount inflightNodes) →
       (nodeConsolidationOptionReplaceOrDelete env node).result = .delete ∧
       (nodeConsolidationOptionReplaceOrDelete env node).savings = node.instanceType.price) ∧
    (newNodes.length ≠ 1 →
     ¬(newNodes = [] ∧ node.pods.length = schedulableCount inflightNodes) →
       (nodeConsolidationOptionReplaceOrDelete env node).result = .notPossible) := by
  unfold nodeConsolidationOptionReplaceOrDelete
  rw [hsim]
  dsimp only
  constructor
  · rintro ⟨h1, h2⟩
    subst h1
    rw [if_pos ⟨rfl, h2⟩]
    exact ⟨rfl, rfl⟩
  · intro hlen hnot
    rw [if_neg (fun hc => hnot ⟨List.length_eq_zero.mp hc.1, hc.2⟩)]
    match newNodes, hlen with
    | [], _ => rfl
    | a :: b :: t, _ => rfl
    | [a], h => exact absurd rfl h

/-- C4 witness: under `envSimFit` the single pod of `candFit` fits
inflight with zero new nodes, so the action is Delete with the old
node's price as savings. -/
theorem delete_when_pods_fit_and_notPossible_otherwise_witness :
    (nodeConsolidationOptionReplaceOrDelete envSimFit candFit).result = .delete ∧
    (nodeConsolidationOptionReplaceOrDelete envSimFit candFit).savings
      = candFit.instanceType.price :=
  (delete_when_pods_fit_and_notPossible_otherwise envSimFit candFit []
    [{ pods := [podCtl] }] rfl).1 ⟨rfl, rfl⟩

/-- C5: a candidate labelled with the spot capacity type whose single
simulated replacement also allows spot capacity yields NotPossible, even
when a strictly cheaper replacement instance type exists. -/
theorem spot_to_spot_notPossible (env : Env) (node : CandidateNode)
    (nn : NewNode) (inflightNodes : List InflightNode)
    (hsim : env.simulate node.node.name node.pods = some ([nn], inflightNodes))
    (hold : lookupKey node.node.labels labelCapacityType = some capacityTypeSpot)
    (hnew : nn.capacityTypeRequirement.contains capacityTypeSpot = true) :
    (nodeConsolidationOptionReplaceOrDelete env node).result = .notPossible := by
  unfold nodeConsolidationOptionReplaceOrDelete
  rw [hsim]
  dsimp only
  rw [if_neg (by simp)]
  cases h : filterByPrice nn.instanceTypeOptions node.instanceType.price with
  | nil => simp
  | cons cheapest rest =>
    simp only [hold, hnew]
    rw [if_pos (by simp)]

/-- C5 witness: the spot candidate `candSpot` with the spot-allowing
replacement `nnSpot` is refused although `nnSpot` offers a strictly
cheaper instance type. -/
theorem spot_to_spot_notPossible_witness :
    (nodeConsolidationOptionReplaceOrDelete envSimSpot candSpot).result = .notPossible ∧
    filterByPrice nnSpot.instanceTypeOptions candSpot.instanceType.price ≠ [] :=
  ⟨spot_to_spot_notPossible envSimSpot candSpot nnSpot [] rfl rfl rfl, by decide⟩

/-- C6: in a tick with only non-empty candidates, `ProcessCluster`
examines the candidates sorted by the `byNodeDisruptionCost` order
(ascending disruption cost, ties by older creation timestamp first — the
sorted list is pairwise `nodeLE` and a permutation of the candidates),
executes exactly the first candidate whose gate passes and whose planned
action is Delete or Replace, then terminates the tick; at most one
consolidation action is performed in any tick. -/
theorem first_sorted_candidate_consolidated (env : Env) (cands : List CandidateNode)
    (canEvict : List Pod → Bool)
    (h1 : candidateNodes env = some cands) (h2 : cands ≠ [])
    (h3 : ∀ c ∈ cands, c.pods ≠ []) (h4 : env.pdbLimits = some canEvict) :
    List.Sorted nodeLE (List.insertionSort nodeLE cands) ∧
    (List.insertionSort nodeLE cands).Perm cands ∧
    (match (List.insertionSort nodeLE cands).find? (firstConsolidatable env canEvict) with
     | some n => ProcessCluster env =
         (.consolidated, [nodeConsolidationActions env n],
          .listPDBs :: performConsolidation env (nodeConsolidationActions env n))
     | none => ProcessCluster env = (.nothingToDo, [], [.listPDBs])) ∧
    (∀ e : Env, (ProcessCluster e).2.1.length ≤ 1) := by
  refine ⟨List.sorted_insertionSort nodeLE cands, List.perm_insertionSort nodeLE cands,
    ?_, processCluster_at_most_one⟩
  rw [processCluster_nonEmpty env cands canEvict h1 h2 h3 h4, consolidateLoop_eq_find]
  cases (List.insertionSort nodeLE cands).find? (firstConsolidatable env canEvict) with
  | none => rfl
  | some n => rfl

/-- C6 witness: under `envC6` (candidates of disruption cost 2 and 1) the
tick is well defined: the sorted order is lawful and at most one action is
performed. -/
theorem first_sorted_candidate_consolidated_witness :
    List.Sorted nodeLE (List.insertionSort nodeLE [candA, candB]) ∧
    (ProcessCluster envC6).2.1.length ≤ 1 :=
  have h := first_sorted_candidate_consolidated envC6 [candA, candB] (fun _ => true)
    rfl (List.cons_ne_nil _ _) (by
      intro c hc
      rcases List.mem_cons.mp hc with rfl | hc2
      · simp [candA]
      · rcases List.mem_cons.mp hc2 with rfl | hc3
        · simp [candB]
        · cases hc3) rfl
  ⟨h.1, h.2.2.2 envC6⟩

/-- C7: `canBeTerminated` rejects a candidate iff the node has a non-zero
deletion timestamp, the PDB limits refuse eviction of its pods, or some
reschedulable pod (not terminating, terminal, or node-owned) carries
do-not-evict or has no controlling owner; and a rejected candidate is
never the one whose action the consolidation loop selects. -/
theorem canBeTerminated_iff_and_never_selected (canEvict : List Pod → Bool)
    (node : CandidateNode) :
    ((canBeTerminated canEvict node).isSome = true ↔
      node.node.deletionTimestamp ≠ none ∨ canEvict node.pods = false ∨
        ∃ p ∈ node.pods, (p.IsTerminating || p.IsTerminal || p.IsOwnedByNode) = false ∧
          (p.HasDoNotEvict = true ∨ p.IsNotOwned = true)) ∧
    (∀ env l a, consolidateLoop env canEvict l = some a →
       ∃ n ∈ l, canBeTerminated canEvict n = none ∧ a = nodeConsolidationActions env n) := by
  refine ⟨canBeTerminated_isSome_iff canEvict node, ?_⟩
  intro env l a h
  rw [consolidateLoop_eq_find] at h
  obtain ⟨n, hfind, ha⟩ := Option.map_eq_some'.mp h
  have hp := List.find?_some hfind
  unfold firstConsolidatable at hp
  simp only [Bool.and_eq_true, Option.isNone_iff_eq_none] at hp
  exact ⟨n, List.mem_of_find?_eq_some hfind, hp.1, ha.symm⟩

/-- C8: on a ReplicaSet list failure with no pending pods and healthy
remaining lists, `stabilizationWindow` returns 0, not the 5-minute window
the claim (and the code's own comment, which says a list failure should
make the controller wait longer) requires. -/
theorem stabilizationWindow_rsListFailure_zero :
    envC8.listReplicaSets = none ∧ hasPendingPods envC8 = false ∧
    stabilizationWindow envC8 = 0 := ⟨rfl, rfl, rfl⟩

/-- C9: whenever some candidate has zero reschedulable pods,
`ProcessCluster` deletes all empty candidates in one batched DeleteEmpty
action and returns Consolidated, without listing PodDisruptionBudgets —
in particular regardless of any deletion timestamp on those nodes. -/
theorem empty_candidates_batch_deleted (env : Env) (cands : List CandidateNode)
    (h1 : candidateNodes env = some cands)
    (hne : cands.filter (fun n => n.pods.isEmpty) ≠ []) :
    ∃ act, ProcessCluster env = (.consolidated, [act], performConsolidation env act) ∧
      act.result = .deleteEmpty ∧
      act.oldNodes = (cands.filter fun n => n.pods.isEmpty).map (fun n => n.node) ∧
      performConsolidation env act = act.oldNodes.map (fun n => Effect.deleteNode n.name) ∧
      Effect.listPDBs ∉ (ProcessCluster env).2.2 := by
  have hcne : cands ≠ [] := by
    intro h
    subst h
    exact hne rfl
  refine ⟨{ oldNodes := (cands.filter fun n => n.pods.isEmpty).map fun n => n.node,
            result := .deleteEmpty }, ?_, rfl, rfl, ?_, ?_⟩
  · unfold ProcessCluster
    rw [h1]
    dsimp only
    rw [if_neg (by simpa [List.isEmpty_iff] using hcne)]
    rw [if_pos (by simpa [List.isEmpty_iff] using hne)]
  · unfold performConsolidation
    rw [if_neg (by simp)]
    rw [if_neg (by simp)]
    simp
  · unfold ProcessCluster
    rw [h1]
    dsimp only
    rw [if_neg (by simpa [List.isEmpty_iff] using hcne)]
    rw [if_pos (by simpa [List.isEmpty_iff] using hne)]
    dsimp only
    unfold performConsolidation
    rw [if_neg (by simp)]
    rw [if_neg (by simp)]
    simp

/-- C9 witness: the only node of `envC9` is empty and already carries a
deletion timestamp; it is still batch-deleted without a PDB listing. -/
theorem empty_candidates_batch_deleted_witness :
    nodeDel.deletionTimestamp ≠ none ∧
    ∃ act, ProcessCluster envC9 = (.consolidated, [act], performConsolidation envC9 act) ∧
      act.result = .deleteEmpty ∧
      act.oldNodes = ([candDel].filter fun n => n.pods.isEmpty).map (fun n => n.node) ∧
      performConsolidation envC9 act = act.oldNodes.map (fun n => Effect.deleteNode n.name) ∧
      Effect.listPDBs ∉ (ProcessCluster envC9).2.2 :=
  ⟨by decide, empty_candidates_batch_deleted envC9 [candDel] rfl (by decide)⟩

/-- C10: the readiness wait accepts the replacement as soon as the
initialized label key is present with any value — here `"false"` — even
though candidate selection treats exactly that node as uninitialized; in
consequence the old node is deleted while the replacement's initialized
label is not `"true"`. -/
theorem readiness_accepts_any_initialized_value (env : Env) (k : KNode) (r : String)
    (hpoll : env.pollNode 0 = some k)
    (hval : lookupKey k.labels labelNodeInitialized = some "false") :
    waitForNodeInitialized env r 0 retryAttempts = ([.observeNode r k.labels], true) ∧
    (∀ pm acc n, lookupKey n.labels labelNodeInitialized = some "false" →
       (candidateStep env pm acc n).1 = acc.1) ∧
    (∀ act old, act.oldNodes = [old] → act.result = .replace →
       (setNodeUnschedulable env old.name true).2 = true →
       env.launchNodes = some [r] →
       Effect.deleteNode old.name ∈ performConsolidation env act) := by
  have hwait : waitForNodeInitialized env r 0 retryAttempts
      = ([.observeNode r k.labels], true) := by
    show waitForNodeInitialized env r 0 (29 + 1) = _
    unfold waitForNodeInitialized
    rw [hpoll]
    dsimp only
    rw [if_pos (by simp [hval])]
  refine ⟨hwait, ?_, ?_⟩
  · intro pm acc n hm
    unfold candidateStep
    split
    · rfl
    · split
      · rfl
      · split
        · rfl
        · split
          · rfl
          · split
            · rfl
            · next hini =>
              exfalso
              rw [hm] at hini
              simp at hini
  · intro act old ho hres hcord hln
    have hL : launchReplacementNode env act =
        ((setNodeUnschedulable env old.name true).1 ++ [Effect.launchNode]
          ++ [Effect.observeNode r k.labels], true) := by
      unfold launchReplacementNode
      rw [ho]
      dsimp only
      rw [hcord]
      rw [if_neg (by simp)]
      rw [hln]
      dsimp only
      rw [hwait]
      simp
    rw [performConsolidation_replace env act hres, hL]
    simp only [Bool.true_eq_false, if_false]
    rw [ho]
    simp

/-- C10 witness: under `envC10` the poll sees the replacement labelled
initialized `"false"`; the wait succeeds at once and the old node is
deleted. -/
theorem readiness_accepts_any_initialized_value_witness :
    waitForNodeInitialized envC10 "r1" 0 retryAttempts
      = ([.observeNode "r1" [(labelNodeInitialized, "false")]], true) ∧
    Effect.deleteNode "old" ∈ performConsolidation envC10 actReplace :=
  have h := readiness_accepts_any_initialized_value envC10 replFalse "r1" rfl rfl
  ⟨h.1, h.2.2 actReplace oldPlain rfl rfl rfl rfl⟩

end Consolidation
